import Mathlib

/-!
# SpellingGame: the word-selection / progression logic of `src/components/SpellingGame.js`

The component is a React function component.  One *render* binds the `useState` values
(`words`, `currentWord`, `currentLevel`, `score`, `usedWords`, ...) as `const`s; every
function of the component (`fetchRandomWord`, `handleAnswer`, `resetGame`, ...) is a closure
over the constants of the render that created it.  A state setter (`setScore`, ...) does not
change those constants: it requests a value for the *next* render.

The embedding follows that reading literally:

* a `GameState` is the tuple of constants of one render;
* every component function is a pure function from the render it closes over (and from the
  outcome of the external calls it makes) to the list of `Call`s it performs, in source order;
* `commit` applies the setter calls of such a list to a `GameState`, the last value set for a
  piece of state winning, which gives the next render;
* a `setTimeout` callback is recorded together with the render it closes over (`Callback`), and
  `fire` runs its body.

Numbers: `score` is a JavaScript number that only ever receives `0`, a stored value, or
`score + 10`; it is modelled as an `Int` (exact below `2^53`).  `Math.random()` and the speech
rate are modelled as rationals; `Math.floor (Math.random () * n)` is the exact floor of the
exact product.
-/

namespace SpellingGame

/-! ## Data model -/

/-- A word record of the catalog (the objects of `getLocalWordData`, or `doc.data ()`).
`sound` is absent on every local record. -/
structure WordRecord where
  id : String
  word : String
  options : List String
  image : Option String
  sound : Option String
  difficulty : String
  deriving DecidableEq, Repr

/-- The four Lottie sources passed to `setAnimationSource`. -/
inductive Animation where
  | levelup
  | gamecomplete
  | correct
  | incorrect
  deriving DecidableEq, Repr

/-- The `useState` constants of one render of `SpellingGame` (lines 43-65) that the
progression logic reads or sets. -/
structure GameState where
  words : List WordRecord
  currentWord : Option WordRecord
  currentLevel : String
  loading : Bool
  score : Int
  usedWords : List String
  animationVisible : Bool
  animationSource : Option Animation
  speechRate : ℚ
  isOffline : Bool
  deriving DecidableEq, Repr

/-- A progress document of the collection `userProgress`, as `userDoc.data ()` returns it:
any of the fields may be missing. -/
structure ProgressDoc where
  level : Option String
  score : Option Int
  wordsCompleted : Option (List String)
  deriving DecidableEq, Repr

/-- A function handed to `setTimeout`, with the render whose constants it closes over.
`levelUpDone` is the arrow of lines 227-230, `answerDone` the arrow of lines 322-330
(`isCorrect` is a local constant of the `handleAnswer` call that created it). -/
inductive Callback where
  | levelUpDone (closure : GameState)
  | answerDone (closure : GameState) (isCorrect : Bool)
  deriving DecidableEq, Repr

/-- The calls a component function performs: state setters, timers, and calls to the
collaborators (progress store, sound, speech, haptics). -/
inductive Call where
  | setCurrentLevel (level : String)
  | setScore (score : Int)
  | setUsedWords (usedWords : List String)
  | setCurrentWord (word : Option WordRecord)
  | setAnimationSource (source : Animation)
  | setAnimationVisible (visible : Bool)
  | setSpeechRate (rate : ℚ)
  | setWords (words : List WordRecord)
  | setLoading (loading : Bool)
  | setIsOffline (isOffline : Bool)
  | setUserProgress (progress : ProgressDoc)
  | setWordSound
  | setTimeout (callback : Callback) (ms : Nat)
  | updateDoc (uid : String) (level : String) (score : Int) (wordsCompleted : List String)
  | getDocs
  | getDoc (uid : String)
  | setDoc (uid : String) (progress : ProgressDoc)
  | playWordSound (word : WordRecord)
  | playSound (isCorrect : Bool)
  | triggerHapticFeedback (type : String)
  | scoreAnimationStart
  | createAsync (uri : String)
  | setRateAsync (rate : ℚ)
  | playAsync
  | speak (text : String) (rate : ℚ)
  deriving DecidableEq, Repr

/-- One setter call applied to the state; every other call leaves the state alone. -/
def applyCall (s : GameState) : Call → GameState
  | .setCurrentLevel l => { s with currentLevel := l }
  | .setScore n => { s with score := n }
  | .setUsedWords ws => { s with usedWords := ws }
  | .setCurrentWord w => { s with currentWord := w }
  | .setAnimationSource a => { s with animationSource := some a }
  | .setAnimationVisible b => { s with animationVisible := b }
  | .setSpeechRate r => { s with speechRate := r }
  | .setWords ws => { s with words := ws }
  | .setLoading b => { s with loading := b }
  | .setIsOffline b => { s with isOffline := b }
  | _ => s

/-- The render that follows a batch of calls: the setters are applied in call order. -/
def commit (s : GameState) (calls : List Call) : GameState :=
  calls.foldl applyCall s

/-- The callbacks a batch of calls handed to `setTimeout`, in call order. -/
def timeoutsOf : List Call → List Callback
  | [] => []
  | .setTimeout cb _ :: rest => cb :: timeoutsOf rest
  | _ :: rest => timeoutsOf rest

/-! ## JavaScript array helpers -/

/-- `xs.indexOf (x)`: the index of the first occurrence, `-1` when there is none. -/
def indexOf (xs : List String) (x : String) : Int :=
  if x ∈ xs then (xs.indexOf x : Int) else -1

/-- `xs[i]` for a numeric index: `undefined` (here `none`) outside `0 .. length - 1`. -/
def arrayGet {α : Type} (xs : List α) (i : Int) : Option α :=
  if i < 0 then none else xs[i.toNat]?

/-- `Math.floor (r * n)` for a draw `r` of `Math.random ()`, as the exact floor of the exact
product.  The code floors the product rounded to a double, which can be the next integer
(for the double nearest to `0.6` and `n = 5` the code gives `3` and the exact floor is `2`);
the rounded product of a draw below `1` and `n` stays below `n`, so both lie in
`0 .. n - 1`. -/
def randomIndex (r : ℚ) (n : Nat) : Int :=
  Rat.floor (r * (n : ℚ))

/-! ## fetchRandomWord (lines 213-245) -/

/-- The tier ordering, the array literal of line 219. -/
def levels : List String := ["easy", "medium", "hard", "expert"]

/-- Line 215: the records of the current level whose `word` is not in `usedWords`. -/
def levelWords (c : GameState) : List WordRecord :=
  c.words.filter fun w => decide (w.difficulty = c.currentLevel) && !decide (w.word ∈ c.usedWords)

/-- The body of `fetchRandomWord` over the render `c` it closes over (its dependency array is
`[words, currentLevel, usedWords]`), with `r` the value returned by `Math.random ()`.
The call `playWordSound (word)` is recorded, not expanded.  `levels[currentIndex + 1]` is
always defined under the guard `currentIndex < levels.length - 1`, as `indexOf` is at least
`-1`; the text `undefined` stands for the impossible other case. -/
def fetchRandomWord (c : GameState) (r : ℚ) : List Call :=
  if (levelWords c).length = 0 then
    let currentIndex := indexOf levels c.currentLevel
    if currentIndex < (levels.length : Int) - 1 then
      [ .setCurrentLevel ((arrayGet levels (currentIndex + 1)).getD "undefined"),
        .setAnimationSource .levelup,
        .setAnimationVisible true,
        .setTimeout (.levelUpDone c) 2500 ]
    else
      [ .setAnimationSource .gamecomplete,
        .setAnimationVisible true ]
  else
    match arrayGet (levelWords c) (randomIndex r (levelWords c).length) with
    | some word => [ .setCurrentWord (some word), .playWordSound word ]
    | none => [ .setCurrentWord none ]

/-! ## playWordSound (lines 248-288) -/

/-- What the audio collaborator does during one `playWordSound` call: whether
`preloadedAssets[word.word]` holds a sound, and which of the awaited calls reject. -/
structure AudioOutcome where
  preloaded : Bool
  createFails : Bool
  setRateFails : Bool
  playFails : Bool
  deriving DecidableEq, Repr

/-- JavaScript truthiness of an optional string: absent and empty are falsy. -/
def truthy : Option String → Bool
  | none => false
  | some t => decide (t ≠ "")

/-- The body of `playWordSound` over the render `c` it closes over.  Each of the three
`catch` blocks performs the same `Speech.speak` call; `Speech.speak` itself is taken not to
throw. -/
def playWordSound (c : GameState) (o : AudioOutcome) (word : WordRecord) : List Call :=
  let fallback : List Call := [ .speak word.word c.speechRate ]
  if o.preloaded then
    if o.setRateFails then [ .setRateAsync c.speechRate ] ++ fallback
    else if o.playFails then [ .setRateAsync c.speechRate, .playAsync ] ++ fallback
    else [ .setRateAsync c.speechRate, .playAsync ]
  else if truthy word.sound then
    let uri := word.sound.getD ""
    if o.createFails then [ .createAsync uri ] ++ fallback
    else if o.setRateFails then [ .createAsync uri, .setRateAsync c.speechRate ] ++ fallback
    else if o.playFails then
      [ .createAsync uri, .setRateAsync c.speechRate, .playAsync ] ++ fallback
    else [ .createAsync uri, .setRateAsync c.speechRate, .playAsync, .setWordSound ]
  else fallback

/-- The rates a batch of calls hands to the pronunciation collaborator
(`sound.setRateAsync` and `Speech.speak`), in call order. -/
def forwardedRates : List Call → List ℚ
  | [] => []
  | .setRateAsync rate :: rest => rate :: forwardedRates rest
  | .speak _ rate :: rest => rate :: forwardedRates rest
  | _ :: rest => forwardedRates rest

/-- Lines 378-380. -/
def changeSpeechRate (rate : ℚ) : List Call :=
  [ .setSpeechRate rate ]

/-- Lines 370-375, the handler of the "Hear Word" button, its calls in the order in which they
are made: `playWordSound` is `async`, so it runs up to its first `await` (its first call,
`setRateAsync`, `createAsync` or `Speech.speak`), then `triggerHapticFeedback` runs, and the
rest of `playWordSound` follows. -/
def repeatWord (c : GameState) (o : AudioOutcome) : List Call :=
  match c.currentWord with
  | some word =>
    match playWordSound c o word with
    | first :: rest => first :: .triggerHapticFeedback "light" :: rest
    | [] => [ .triggerHapticFeedback "light" ]
  | none => []

/-! ## saveUserProgress (lines 190-210) -/

/-- The body of `saveUserProgress` over the render `c` it closes over; `user` is
`getAuth ().currentUser` (its `uid`), read when the function runs.  A rejected `updateDoc`
is caught and only logged. -/
def saveUserProgress (c : GameState) (user : Option String) : List Call :=
  match user with
  | some uid => [ .updateDoc uid c.currentLevel c.score c.usedWords ]
  | none => []

/-- The progress documents a batch of calls writes: `(level, score, wordsCompleted)`. -/
def writesOf : List Call → List (String × Int × List String)
  | [] => []
  | .updateDoc _ level score wordsCompleted :: rest => (level, score, wordsCompleted) :: writesOf rest
  | _ :: rest => writesOf rest

/-! ## handleAnswer (lines 291-331) -/

/-- The synchronous part of `handleAnswer` over the render `c` it closes over. -/
def handleAnswer (c : GameState) (selectedOption : String) : List Call :=
  match c.currentWord with
  | none => []
  | some currentWord =>
    let isCorrect := decide (selectedOption = currentWord.word)
    (if isCorrect then
      [ .setScore (c.score + 10),
        .setAnimationSource .correct,
        .playSound true,
        .triggerHapticFeedback "success",
        .scoreAnimationStart ]
    else
      [ .setAnimationSource .incorrect,
        .playSound false,
        .triggerHapticFeedback "error" ])
    ++ [ .setAnimationVisible true, .setTimeout (.answerDone c isCorrect) 2000 ]

/-- The arrow of lines 322-330, run 2000 ms after `handleAnswer`.  Its `usedWords`,
`currentWord`, `saveUserProgress` and `fetchRandomWord` are those of the render `c` in which
`handleAnswer` was created.  `handleAnswer` creates it only when `currentWord` is present. -/
def answerDone (c : GameState) (isCorrect : Bool) (user : Option String) (r : ℚ) : List Call :=
  .setAnimationVisible false ::
    (if isCorrect then
      match c.currentWord with
      | some currentWord =>
        .setUsedWords (c.usedWords ++ [currentWord.word]) ::
          (saveUserProgress c user ++ fetchRandomWord c r)
      | none => []
    else [])

/-- The arrow of lines 227-230, run 2500 ms after a tier advance: the `fetchRandomWord` it
calls is the callback it was created in, over the same render `c`. -/
def levelUpDone (c : GameState) (r : ℚ) : List Call :=
  .setAnimationVisible false :: fetchRandomWord c r

/-- Running a timer callback. -/
def fire (user : Option String) (r : ℚ) : Callback → List Call
  | .levelUpDone c => levelUpDone c r
  | .answerDone c isCorrect => answerDone c isCorrect user r

/-! ## resetGame (lines 390-397) and the start effect (lines 383-387) -/

/-- The body of `resetGame` over the render `c` it closes over. -/
def resetGame (c : GameState) (user : Option String) (r : ℚ) : List Call :=
  [ .setCurrentLevel "easy", .setScore 0, .setUsedWords [], .setCurrentWord none ]
    ++ saveUserProgress c user ++ fetchRandomWord c r

/-- The body of the effect "Start the game", run after a render `c` in which one of
`loading`, `words`, `currentWord`, `fetchRandomWord` changed. -/
def startGame (c : GameState) (r : ℚ) : List Call :=
  if !c.loading && decide (c.words.length > 0) && c.currentWord.isNone then
    fetchRandomWord c r
  else []

/-! ## The component with its pending timers -/

/-- A render together with the timer callbacks that have been scheduled and not yet run. -/
structure Machine where
  state : GameState
  timers : List Callback
  deriving DecidableEq, Repr

/-- A batch of calls: the setters give the next render, the timers are queued. -/
def Machine.perform (m : Machine) (calls : List Call) : Machine :=
  { state := commit m.state calls, timers := m.timers ++ timeoutsOf calls }

/-- The oldest pending timer runs. -/
def Machine.fireNext (m : Machine) (user : Option String) (r : ℚ) : Machine :=
  match m.timers with
  | [] => m
  | cb :: rest => Machine.perform { state := m.state, timers := rest } (fire user r cb)

/-- The oldest pending timer runs, `n` times over, each run drawing `r`. -/
def Machine.fireMany (m : Machine) (user : Option String) (r : ℚ) : Nat → Machine
  | 0 => m
  | n + 1 => Machine.fireMany (m.fireNext user r) user r n

/-- Successive calls of `fetchRandomWord`, `n` of them, each made from the render the previous
one left; the call number `k` draws `rs k`. -/
def fetchMany (rs : Nat → ℚ) : Nat → GameState → GameState
  | 0, s => s
  | n + 1, s => commit (fetchMany rs n s) (fetchRandomWord (fetchMany rs n s) (rs n))

/-! ## getLocalWordData (lines 400-459) -/

/-- One record of the local catalog; none of them has a `sound`. -/
def localWord (id word : String) (options : List String) (image difficulty : String) :
    WordRecord :=
  { id := id, word := word, options := options, image := some image, sound := none,
    difficulty := difficulty }

/-- The fallback catalog. -/
def getLocalWordData : List WordRecord :=
  [ localWord "word1" "cat" ["cat", "kat", "cet", "caat"]
      "https://source.unsplash.com/featured/?cat" "easy",
    localWord "word2" "dog" ["dog", "dogg", "doog", "dag"]
      "https://source.unsplash.com/featured/?dog" "easy",
    localWord "word3" "run" ["run", "runn", "roon", "rann"]
      "https://source.unsplash.com/featured/?running" "easy",
    localWord "word4" "jump" ["jump", "jamp", "jomp", "jumb"]
      "https://source.unsplash.com/featured/?jumping" "easy",
    localWord "word5" "play" ["play", "plai", "pley", "pllay"]
      "https://source.unsplash.com/featured/?playing" "easy",
    localWord "word6" "apple" ["apple", "aple", "appel", "apel"]
      "https://source.unsplash.com/featured/?apple" "medium",
    localWord "word7" "banana" ["banana", "bananna", "banena", "bananaa"]
      "https://source.unsplash.com/featured/?banana" "medium",
    localWord "word8" "orange" ["orange", "orenge", "orang", "oranj"]
      "https://source.unsplash.com/featured/?orange" "medium" ]

/-- The state of the first render once the catalog `words` is loaded (the `useState`
initial values, `loading` false). -/
def initialState (words : List WordRecord) : GameState :=
  { words := words, currentWord := none, currentLevel := "easy", loading := false, score := 0,
    usedWords := [], animationVisible := false, animationSource := none, speechRate := 1,
    isOffline := false }

/-! ## loadUserProgress (lines 155-187) -/

/-- The outcome of `getDoc (userDocRef)`: the promise rejects, or the snapshot does not exist,
or it exists with the data `userData`. -/
inductive GetDocResult where
  | rejects
  | absent
  | found (userData : ProgressDoc)
  deriving DecidableEq, Repr

/-- The document of lines 172-177 (its `lastUpdated` stamp is left out). -/
def initialProgress : ProgressDoc :=
  { level := some "easy", score := some 0, wordsCompleted := some [] }

/-- The body of `loadUserProgress`; `user` is `getAuth ().currentUser` (its `uid`), `store` the
outcome of `getDoc` and `setDocRejects` that of `setDoc`.  Whatever rejects is caught and only
logged.  `userData.level || "easy"` replaces a missing or empty level, `userData.score || 0` a
missing score, `userData.wordsCompleted || []` a missing list. -/
def loadUserProgress (user : Option String) (store : GetDocResult) (setDocRejects : Bool) :
    List Call :=
  match user with
  | some uid =>
    .getDoc uid ::
      (match store with
      | .rejects => []
      | .found userData =>
        [ .setUserProgress userData,
          .setCurrentLevel (if truthy userData.level then userData.level.getD "" else "easy"),
          .setScore (userData.score.getD 0),
          .setUsedWords (userData.wordsCompleted.getD []) ]
      | .absent =>
        .setDoc uid initialProgress ::
          (if setDocRejects then [] else [ .setUserProgress initialProgress ]))
  | none => []

/-- The calls of a batch that go to the Progress Store. -/
def storeCallsOf : List Call → List Call
  | [] => []
  | .getDoc uid :: rest => .getDoc uid :: storeCallsOf rest
  | .setDoc uid progress :: rest => .setDoc uid progress :: storeCallsOf rest
  | .updateDoc uid level score wordsCompleted :: rest =>
    .updateDoc uid level score wordsCompleted :: storeCallsOf rest
  | _ :: rest => storeCallsOf rest

/-! ## fetchWords (lines 90-125) -/

/-- The outcome of `getDocs (wordsCollection)`: the promise rejects, or it yields a snapshot
whose documents hold the records `docs` (`querySnapshot.empty` means there is none). -/
inductive GetDocsResult where
  | rejects
  | snapshot (docs : List WordRecord)
  deriving DecidableEq, Repr

/-- The `try` block of `fetchWords`: an error is what reaches the `catch` clause. -/
def fetchWordsTry (fetched : GetDocsResult) (user : Option String) (store : GetDocResult)
    (setDocRejects : Bool) : Except String (List Call) :=
  match fetched with
  | .rejects => .error "getDocs rejected"
  | .snapshot docs =>
    .ok ((if docs.isEmpty then [ .setIsOffline true, .setWords getLocalWordData ]
          else [ .setWords docs ])
        ++ loadUserProgress user store setDocRejects
        ++ [ .setLoading false ])

/-- The body of `fetchWords`: the calls it makes when it completes, or the error it lets
through.  The `catch` clause makes setter calls only. -/
def fetchWords (fetched : GetDocsResult) (user : Option String) (store : GetDocResult)
    (setDocRejects : Bool) : Except String (List Call) :=
  match fetchWordsTry fetched user store setDocRejects with
  | .ok calls => .ok (.getDocs :: calls)
  | .error _ =>
    .ok [ .getDocs, .setIsOffline true, .setWords getLocalWordData, .setLoading false ]

/-! ## The progress indicator (lines 545-560) -/

/-- The used words counted as completed in the current level: those whose first catalog
record with that `word` has the current level as `difficulty` (`find (...)?.difficulty`). -/
def completedInLevel (c : GameState) : List String :=
  c.usedWords.filter fun w =>
    match c.words.find? (fun word => decide (word.word = w)) with
    | some word => decide (word.difficulty = c.currentLevel)
    | none => false

/-- The catalog records of the current level. -/
def totalInLevel (c : GameState) : List WordRecord :=
  c.words.filter fun w => decide (w.difficulty = c.currentLevel)

/-- The divisor `total || 1`. -/
def progressDivisor (c : GameState) : Nat :=
  if (totalInLevel c).length = 0 then 1 else (totalInLevel c).length

/-- The number in front of the percent sign in the `width` of the fill. -/
def progressWidth (c : GameState) : ℚ :=
  ((completedInLevel c).length : ℚ) / (progressDivisor c : ℚ) * 100

/-! ## Sequences of operations -/

/-- What can happen to the mounted component: a call of the `fetchRandomWord`, `handleAnswer`
or `resetGame` of the current render, or the oldest pending timer running. -/
inductive Event where
  | fetchRandomWord (r : ℚ)
  | handleAnswer (selectedOption : String)
  | resetGame (r : ℚ)
  | timer (r : ℚ)
  deriving DecidableEq, Repr

/-- One event. -/
def Machine.step (user : Option String) (m : Machine) : Event → Machine
  | .fetchRandomWord r => m.perform (fetchRandomWord m.state r)
  | .handleAnswer selectedOption => m.perform (handleAnswer m.state selectedOption)
  | .resetGame r => m.perform (resetGame m.state user r)
  | .timer r => m.fireNext user r

/-- A sequence of events, in order. -/
def Machine.run (user : Option String) (m : Machine) (events : List Event) : Machine :=
  events.foldl (Machine.step user) m

/-- The events that are selection attempts: a `fetchRandomWord` call of the current render, or
a pending timer running. -/
def Event.isFetchOrTimer : Event → Bool
  | .fetchRandomWord _ => true
  | .timer _ => true
  | .handleAnswer _ => false
  | .resetGame _ => false

/-! ## Concrete catalogs and renders used as test inputs -/

/-- A catalog with exactly one record per tier. -/
def oneWordPerTier : List WordRecord :=
  [ localWord "w1" "cat" ["cat", "kat"] "cat.png" "easy",
    localWord "w2" "apple" ["apple", "aple"] "apple.png" "medium",
    localWord "w3" "rhythm" ["rhythm", "rythm"] "rhythm.png" "hard",
    localWord "w4" "conscience" ["conscience", "concience"] "conscience.png" "expert" ]

/-- The render in which `cat`, the only easy word of `oneWordPerTier`, is presented. -/
def catPresented : GameState :=
  { initialState oneWordPerTier with
    currentWord := some (localWord "w1" "cat" ["cat", "kat"] "cat.png" "easy") }

/-- The render after the last word of `oneWordPerTier` was answered: the level is `expert`,
every word is used, and the word answered last is still the current one. -/
def expertFinished : GameState :=
  { initialState oneWordPerTier with
    currentLevel := "expert"
    score := 40
    usedWords := ["cat", "apple", "rhythm", "conscience"]
    currentWord :=
      some (localWord "w4" "conscience" ["conscience", "concience"] "conscience.png" "expert") }

/-- The render at the end of the two-word scenario: the catalog holds only the easy records
`cat` and `dog`, both are used, and `dog`, answered last, is still the current word. -/
def easyOnlyUsed : GameState :=
  { initialState
      [ localWord "cat" "cat" ["cat", "kat"] "cat.png" "easy",
        localWord "dog" "dog" ["dog", "dogg"] "dog.png" "easy" ] with
    score := 20
    usedWords := ["cat", "dog"]
    currentWord := some (localWord "dog" "dog" ["dog", "dogg"] "dog.png" "easy") }

/-- A render in the middle of the medium tier of the local catalog, as `loadUserProgress`
restores it from a stored progress document: the five easy words are done, `apple` is
presented. -/
def mediumInProgress : GameState :=
  { initialState getLocalWordData with
    currentLevel := "medium"
    score := 50
    usedWords := ["cat", "dog", "run", "jump", "play"]
    currentWord :=
      some (localWord "word6" "apple" ["apple", "aple", "appel", "apel"]
        "https://source.unsplash.com/featured/?apple" "medium") }

/-- The render after `cat` was answered once in `catPresented`: `cat` is used, and is the
current word again. -/
def catAnsweredOnce : GameState :=
  { catPresented with
    score := 10
    usedWords := ["cat"]
    animationSource := some .correct }

/-- A render whose level is not one of the four tiers, as `loadUserProgress` sets it from a
progress document with `level: "beginner"`; no catalog record has that difficulty. -/
def unknownLevel : GameState :=
  { initialState getLocalWordData with currentLevel := "beginner" }

/-! ## Basic facts about the helpers -/

theorem randomIndex_eq_floor (r : ℚ) (n : Nat) : randomIndex r n = ⌊r * (n : ℚ)⌋ := rfl

theorem randomIndex_nonneg {r : ℚ} (n : Nat) (h0 : 0 ≤ r) : 0 ≤ randomIndex r n := by
  rw [randomIndex_eq_floor]
  exact Int.floor_nonneg.mpr (mul_nonneg h0 (Nat.cast_nonneg n))

theorem randomIndex_lt {r : ℚ} {n : Nat} (h1 : r < 1) (hn : 0 < n) :
    randomIndex r n < (n : Int) := by
  rw [randomIndex_eq_floor, Int.floor_lt]
  have hn' : (0 : ℚ) < (n : ℚ) := by exact_mod_cast hn
  have : r * (n : ℚ) < 1 * (n : ℚ) := mul_lt_mul_of_pos_right h1 hn'
  simpa using this

theorem randomIndex_zero (n : Nat) : randomIndex 0 n = 0 := by
  rw [randomIndex_eq_floor]
  simp

theorem arrayGet_of_bounds {α : Type} (xs : List α) (i : Int) (h0 : 0 ≤ i)
    (h1 : i < (xs.length : Int)) : ∃ x, x ∈ xs ∧ arrayGet xs i = some x := by
  have hlt : i.toNat < xs.length := by omega
  refine ⟨xs[i.toNat], List.getElem_mem hlt, ?_⟩
  have hneg : ¬ i < 0 := by omega
  simp [arrayGet, hneg, List.getElem?_eq_getElem hlt]

theorem mem_levelWords (c : GameState) (w : WordRecord) :
    w ∈ levelWords c ↔ w ∈ c.words ∧ w.difficulty = c.currentLevel ∧ w.word ∉ c.usedWords := by
  simp [levelWords, List.mem_filter]

theorem levelWords_eq_nil (c : GameState) :
    levelWords c = [] ↔
      ∀ w ∈ c.words, w.difficulty = c.currentLevel → w.word ∈ c.usedWords := by
  simp [levelWords, List.filter_eq_nil_iff]

/-- With a candidate left and a draw in `[0, 1)`, `fetchRandomWord` sets one of the candidates
and asks for its pronunciation. -/
theorem fetchRandomWord_of_candidates (c : GameState) (r : ℚ) (h0 : 0 ≤ r) (h1 : r < 1)
    (hne : levelWords c ≠ []) :
    ∃ w, w ∈ levelWords c ∧ fetchRandomWord c r = [ .setCurrentWord (some w), .playWordSound w ] := by
  have hpos : 0 < (levelWords c).length := List.length_pos.mpr hne
  obtain ⟨w, hw, hget⟩ := arrayGet_of_bounds (levelWords c)
    (randomIndex r (levelWords c).length) (randomIndex_nonneg _ h0) (randomIndex_lt h1 hpos)
  refine ⟨w, hw, ?_⟩
  have hlen : (levelWords c).length ≠ 0 := by omega
  simp [fetchRandomWord, hlen, hget]

/-- Without a candidate, below the last tier: the tier-advance branch. -/
theorem fetchRandomWord_of_exhausted (c : GameState) (r : ℚ) (hnil : levelWords c = [])
    (hidx : indexOf levels c.currentLevel < 3) :
    fetchRandomWord c r =
      [ .setCurrentLevel ((arrayGet levels (indexOf levels c.currentLevel + 1)).getD "undefined"),
        .setAnimationSource .levelup,
        .setAnimationVisible true,
        .setTimeout (.levelUpDone c) 2500 ] := by
  have h3 : indexOf levels c.currentLevel < ((levels.length : Nat) : Int) - 1 := by
    simpa [levels] using hidx
  simp [fetchRandomWord, hnil, h3]

/-- Without a candidate, at the last tier: the game-completed branch. -/
theorem fetchRandomWord_of_completed (c : GameState) (r : ℚ) (hnil : levelWords c = [])
    (hidx : ¬ indexOf levels c.currentLevel < 3) :
    fetchRandomWord c r = [ .setAnimationSource .gamecomplete, .setAnimationVisible true ] := by
  have h3 : ¬ indexOf levels c.currentLevel < ((levels.length : Nat) : Int) - 1 := by
    simpa [levels] using hidx
  simp [fetchRandomWord, hnil, h3]

/-! ## C1 -/

/-- C1: for every render with at least one catalog record of the current level whose word is
not in `usedWords`, and every draw `r` with `0 ≤ r < 1`, the index `floor (r * candidates.length)`
is a valid index of the candidate list, and `fetchRandomWord` sets `currentWord` to a record of
the catalog whose difficulty is the level and whose word is not in `usedWords`. -/
theorem fetchRandomWord_selects_unused (c : GameState) (r : ℚ) (h0 : 0 ≤ r) (h1 : r < 1)
    (hex : ∃ w, w ∈ c.words ∧ w.difficulty = c.currentLevel ∧ w.word ∉ c.usedWords) :
    0 ≤ randomIndex r (levelWords c).length ∧
    randomIndex r (levelWords c).length < ((levelWords c).length : Int) ∧
    ∃ w, (commit c (fetchRandomWord c r)).currentWord = some w ∧
      w ∈ c.words ∧ w.difficulty = c.currentLevel ∧ w.word ∉ c.usedWords := by
  obtain ⟨w0, hw0⟩ := hex
  have hne : levelWords c ≠ [] := List.ne_nil_of_mem ((mem_levelWords c w0).mpr hw0)
  have hpos : 0 < (levelWords c).length := List.length_pos.mpr hne
  refine ⟨randomIndex_nonneg _ h0, randomIndex_lt h1 hpos, ?_⟩
  obtain ⟨w, hw, hcalls⟩ := fetchRandomWord_of_candidates c r h0 h1 hne
  refine ⟨w, ?_, (mem_levelWords c w).mp hw⟩
  simp [hcalls, commit, applyCall]

/-- The witness of C1: the first selection from the local catalog with the draw `1/2`. -/
theorem fetchRandomWord_selects_unused_witness :
    ∃ w, (commit (initialState getLocalWordData)
        (fetchRandomWord (initialState getLocalWordData) (1 / 2))).currentWord = some w ∧
      w ∈ (initialState getLocalWordData).words ∧
      w.difficulty = (initialState getLocalWordData).currentLevel ∧
      w.word ∉ (initialState getLocalWordData).usedWords :=
  (fetchRandomWord_selects_unused (initialState getLocalWordData) (1 / 2) (by norm_num)
    (by norm_num)
    ⟨localWord "word1" "cat" ["cat", "kat", "cet", "caat"]
      "https://source.unsplash.com/featured/?cat" "easy", by decide, by decide, by decide⟩).2.2

/-! ## Frame lemmas: what a batch of calls can change -/

theorem commit_append (s : GameState) (a b : List Call) :
    commit s (a ++ b) = commit (commit s a) b := by
  simp [commit, List.foldl_append]

theorem commit_cons (s : GameState) (a : Call) (b : List Call) :
    commit s (a :: b) = commit (applyCall s a) b := rfl

theorem commit_nil (s : GameState) : commit s [] = s := rfl

theorem commit_saveUserProgress (s c : GameState) (user : Option String) :
    commit s (saveUserProgress c user) = s := by
  cases user <;> rfl

/-- A `fetchRandomWord` batch never sets `score`, `usedWords` or `words`. -/
theorem commit_fetchRandomWord_frame (s c : GameState) (r : ℚ) :
    (commit s (fetchRandomWord c r)).score = s.score ∧
    (commit s (fetchRandomWord c r)).usedWords = s.usedWords ∧
    (commit s (fetchRandomWord c r)).words = s.words := by
  unfold fetchRandomWord
  split
  · dsimp only
    split <;> simp [commit, applyCall]
  · split <;> simp [commit, applyCall]

/-- The render after a correct answer and the timer it started. -/
theorem machine_after_correct_answer (c : GameState) (w : WordRecord)
    (selectedOption : String) (user : Option String) (r : ℚ)
    (hw : c.currentWord = some w) (hsel : selectedOption = w.word) :
    ((Machine.perform { state := c, timers := [] }
        (handleAnswer c selectedOption)).fireNext user r).state.score = c.score + 10 ∧
    ((Machine.perform { state := c, timers := [] }
        (handleAnswer c selectedOption)).fireNext user r).state.usedWords
      = c.usedWords ++ [w.word] := by
  have hh : handleAnswer c selectedOption =
      [ .setScore (c.score + 10), .setAnimationSource .correct, .playSound true,
        .triggerHapticFeedback "success", .scoreAnimationStart, .setAnimationVisible true,
        .setTimeout (.answerDone c true) 2000 ] := by
    simp [handleAnswer, hw, hsel]
  have hfr := fun s => commit_fetchRandomWord_frame s c r
  constructor <;>
    simp [hh, Machine.perform, Machine.fireNext, timeoutsOf, fire, answerDone, hw,
      commit_cons, commit_nil, commit_append, commit_saveUserProgress, hfr, applyCall]

/-! ## C2 -/

/-- C2, the code at a failing input: the catalog has one record per tier, `cat` is presented
and answered correctly; the timer of `handleAnswer` then records `cat` in `usedWords` and, in
the same batch, selects `cat` again, because the `fetchRandomWord` it calls still filters
against the `usedWords` of the render in which the answer was given; the start effect of the
render that follows selects nothing, a current word being present. -/
theorem answered_word_is_selected_again :
    catPresented.currentWord.map (fun w => w.word) = some "cat" ∧
    ((Machine.perform { state := catPresented, timers := [] }
        (handleAnswer catPresented "cat")).fireNext none 0).state.usedWords = ["cat"] ∧
    (((Machine.perform { state := catPresented, timers := [] }
        (handleAnswer catPresented "cat")).fireNext none 0).state.currentWord.map
          fun w => w.word) = some "cat" ∧
    ((Machine.perform { state := catPresented, timers := [] }
        (handleAnswer catPresented "cat")).fireNext none 0).state.currentLevel = "easy" ∧
    ∀ r, startGame ((Machine.perform { state := catPresented, timers := [] }
        (handleAnswer catPresented "cat")).fireNext none 0).state r = [] := by
  have hlw : levelWords catPresented = [localWord "w1" "cat" ["cat", "kat"] "cat.png" "easy"] := by
    decide
  have hf : fetchRandomWord catPresented 0 =
      [ .setCurrentWord (some (localWord "w1" "cat" ["cat", "kat"] "cat.png" "easy")),
        .playWordSound (localWord "w1" "cat" ["cat", "kat"] "cat.png" "easy") ] := by
    simp [fetchRandomWord, hlw, randomIndex_zero, arrayGet]
  have hh : handleAnswer catPresented "cat" =
      [ .setScore 10, .setAnimationSource .correct, .playSound true,
        .triggerHapticFeedback "success", .scoreAnimationStart, .setAnimationVisible true,
        .setTimeout (.answerDone catPresented true) 2000 ] := by
    decide
  have hcw : ((Machine.perform { state := catPresented, timers := [] }
      (handleAnswer catPresented "cat")).fireNext none 0).state.currentWord
      = some (localWord "w1" "cat" ["cat", "kat"] "cat.png" "easy") := by
    simp [hh, Machine.perform, Machine.fireNext, timeoutsOf, fire, answerDone, hf,
      saveUserProgress, commit, applyCall]
    decide
  refine ⟨by decide, ?_, ?_, ?_, ?_⟩
  · simp [hh, Machine.perform, Machine.fireNext, timeoutsOf, fire, answerDone, hf,
      saveUserProgress, commit, applyCall]
    decide
  · rw [hcw]; rfl
  · simp [hh, Machine.perform, Machine.fireNext, timeoutsOf, fire, answerDone, hf,
      saveUserProgress, commit, applyCall]
    decide
  · intro r
    simp [startGame, hcw]

/-! ## C3 -/

/-- C3: in every render that presents a word, answering with a string equal to
`currentWord.word` and letting the 2000 ms timer of that answer run sets `score` to the
render's score plus 10 and `usedWords` to the render's list followed by `currentWord.word`:
one identifier is appended, the earlier ones keep their places. -/
theorem handleAnswer_correct_scores_and_records (c : GameState) (w : WordRecord)
    (selectedOption : String) (user : Option String) (r : ℚ)
    (hw : c.currentWord = some w) (hsel : selectedOption = w.word) :
    ((Machine.perform { state := c, timers := [] }
        (handleAnswer c selectedOption)).fireNext user r).state.score = c.score + 10 ∧
    ((Machine.perform { state := c, timers := [] }
        (handleAnswer c selectedOption)).fireNext user r).state.usedWords
      = c.usedWords ++ [w.word] :=
  machine_after_correct_answer c w selectedOption user r hw hsel

/-- The witness of C3: `cat` answered correctly in the render `catPresented`. -/
theorem handleAnswer_correct_scores_and_records_witness :
    ((Machine.perform { state := catPresented, timers := [] }
        (handleAnswer catPresented "cat")).fireNext (some "uid-1") (1 / 2)).state.score
      = catPresented.score + 10 ∧
    ((Machine.perform { state := catPresented, timers := [] }
        (handleAnswer catPresented "cat")).fireNext (some "uid-1") (1 / 2)).state.usedWords
      = catPresented.usedWords ++ [(localWord "w1" "cat" ["cat", "kat"] "cat.png" "easy").word] :=
  handleAnswer_correct_scores_and_records catPresented
    (localWord "w1" "cat" ["cat", "kat"] "cat.png" "easy") "cat" (some "uid-1") (1 / 2) rfl rfl

/-! ## C4 -/

/-- C4: when no word is presented, `handleAnswer` performs no call at all; when no word is
presented or the selected string differs from `currentWord.word`, neither the synchronous
part of `handleAnswer` nor the timer it may have started changes `score`, `usedWords`,
`currentLevel` or `currentWord`, and no further timer is left pending. -/
theorem handleAnswer_incorrect_changes_nothing (c : GameState) (selectedOption : String)
    (user : Option String) (r : ℚ)
    (h : c.currentWord = none ∨ ∃ w, c.currentWord = some w ∧ selectedOption ≠ w.word) :
    handleAnswer { c with currentWord := none } selectedOption = [] ∧
    (commit c (handleAnswer c selectedOption)).score = c.score ∧
    (commit c (handleAnswer c selectedOption)).usedWords = c.usedWords ∧
    (commit c (handleAnswer c selectedOption)).currentLevel = c.currentLevel ∧
    (commit c (handleAnswer c selectedOption)).currentWord = c.currentWord ∧
    ((Machine.perform { state := c, timers := [] }
        (handleAnswer c selectedOption)).fireNext user r).state.score = c.score ∧
    ((Machine.perform { state := c, timers := [] }
        (handleAnswer c selectedOption)).fireNext user r).state.usedWords = c.usedWords ∧
    ((Machine.perform { state := c, timers := [] }
        (handleAnswer c selectedOption)).fireNext user r).state.currentLevel = c.currentLevel ∧
    ((Machine.perform { state := c, timers := [] }
        (handleAnswer c selectedOption)).fireNext user r).state.currentWord = c.currentWord ∧
    ((Machine.perform { state := c, timers := [] }
        (handleAnswer c selectedOption)).fireNext user r).timers = [] := by
  refine ⟨rfl, ?_⟩
  rcases h with hnone | ⟨w, hw, hne⟩
  · have hh : handleAnswer c selectedOption = [] := by simp [handleAnswer, hnone]
    simp [hh, commit, Machine.perform, Machine.fireNext, timeoutsOf]
  · have hh : handleAnswer c selectedOption =
        [ .setAnimationSource .incorrect, .playSound false, .triggerHapticFeedback "error",
          .setAnimationVisible true, .setTimeout (.answerDone c false) 2000 ] := by
      simp [handleAnswer, hw, hne]
    simp [hh, commit, applyCall, Machine.perform, Machine.fireNext, timeoutsOf, fire,
      answerDone]

/-- The witness of C4: `Cat` is not `cat`, the comparison is case-sensitive. -/
theorem handleAnswer_incorrect_changes_nothing_witness :
    (commit catPresented (handleAnswer catPresented "Cat")).score = catPresented.score ∧
    ((Machine.perform { state := catPresented, timers := [] }
        (handleAnswer catPresented "Cat")).fireNext none 0).state.usedWords
      = catPresented.usedWords ∧
    ((Machine.perform { state := catPresented, timers := [] }
        (handleAnswer catPresented "Cat")).fireNext none 0).state.currentWord
      = catPresented.currentWord :=
  have h := handleAnswer_incorrect_changes_nothing catPresented "Cat" none 0
    (Or.inr ⟨localWord "w1" "cat" ["cat", "kat"] "cat.png" "easy", rfl, by decide⟩)
  ⟨h.2.1, h.2.2.2.2.2.2.1, h.2.2.2.2.2.2.2.2.1⟩

/-! ## C5 -/

/-- C5: at a level below `expert` with no unused record of that level, `fetchRandomWord`
sets `currentLevel` to the entry of `levels` that follows the current one, shows the level-up
animation, starts the 2500 ms timer, and leaves `usedWords` and `score` as they were. -/
theorem fetchRandomWord_advances_one_tier (c : GameState) (r : ℚ)
    (hlevel : c.currentLevel ∈ ["easy", "medium", "hard"])
    (hused : ∀ w ∈ c.words, w.difficulty = c.currentLevel → w.word ∈ c.usedWords) :
    ∃ i next, levels[i]? = some c.currentLevel ∧ levels[i + 1]? = some next ∧
      fetchRandomWord c r =
        [ .setCurrentLevel next, .setAnimationSource .levelup, .setAnimationVisible true,
          .setTimeout (.levelUpDone c) 2500 ] ∧
      (commit c (fetchRandomWord c r)).currentLevel = next ∧
      (commit c (fetchRandomWord c r)).animationSource = some .levelup ∧
      (commit c (fetchRandomWord c r)).animationVisible = true ∧
      (commit c (fetchRandomWord c r)).usedWords = c.usedWords ∧
      (commit c (fetchRandomWord c r)).score = c.score := by
  have hnil : levelWords c = [] := (levelWords_eq_nil c).mpr hused
  have key : ∀ (i : Nat) (next : String), levels[i]? = some c.currentLevel →
      levels[i + 1]? = some next → indexOf levels c.currentLevel = (i : Int) → i < 3 →
      ∃ i next, levels[i]? = some c.currentLevel ∧ levels[i + 1]? = some next ∧
        fetchRandomWord c r =
          [ .setCurrentLevel next, .setAnimationSource .levelup, .setAnimationVisible true,
            .setTimeout (.levelUpDone c) 2500 ] ∧
        (commit c (fetchRandomWord c r)).currentLevel = next ∧
        (commit c (fetchRandomWord c r)).animationSource = some .levelup ∧
        (commit c (fetchRandomWord c r)).animationVisible = true ∧
        (commit c (fetchRandomWord c r)).usedWords = c.usedWords ∧
        (commit c (fetchRandomWord c r)).score = c.score := by
    intro i next hi hnext hidx hlt
    have hidx3 : indexOf levels c.currentLevel < 3 := by omega
    have hget : arrayGet levels (indexOf levels c.currentLevel + 1) = some next := by
      have hneg : ¬ ((i : Int) + 1 < 0) := by omega
      have hnat : ((i : Int) + 1).toNat = i + 1 := by omega
      simp [arrayGet, hidx, hneg, hnat, hnext]
    have hcalls := fetchRandomWord_of_exhausted c r hnil hidx3
    rw [hget] at hcalls
    refine ⟨i, next, hi, hnext, ?_⟩
    simp [hcalls, commit, applyCall]
  simp only [List.mem_cons, List.mem_singleton, List.not_mem_nil, or_false] at hlevel
  rcases hlevel with h | h | h
  · exact key 0 "medium" (by rw [h]; rfl) rfl (by rw [h]; decide) (by omega)
  · exact key 1 "hard" (by rw [h]; rfl) rfl (by rw [h]; decide) (by omega)
  · exact key 2 "expert" (by rw [h]; rfl) rfl (by rw [h]; decide) (by omega)

/-- The witness of C5: the local catalog at level `easy` with its five easy words used. -/
theorem fetchRandomWord_advances_one_tier_witness :
    ∃ i next, levels[i]? = some "easy" ∧ levels[i + 1]? = some next ∧
      (commit { initialState getLocalWordData with
          usedWords := ["cat", "dog", "run", "jump", "play"] }
        (fetchRandomWord { initialState getLocalWordData with
          usedWords := ["cat", "dog", "run", "jump", "play"] } 0)).currentLevel = next :=
  have h := fetchRandomWord_advances_one_tier
    { initialState getLocalWordData with usedWords := ["cat", "dog", "run", "jump", "play"] } 0
    (by decide) (by decide)
  h.imp fun _ hi => hi.imp fun _ hn => ⟨hn.1, hn.2.1, hn.2.2.2.1⟩

/-! ## C6 -/

/-- C6 as stated fails: at level `expert` with every expert word used, `fetchRandomWord`
shows the game-completed animation but sets no `currentWord`, so the word answered last
stays the current word instead of becoming none. -/
theorem gamecomplete_keeps_currentWord :
    expertFinished.currentLevel = "expert" ∧
    levelWords expertFinished = [] ∧
    fetchRandomWord expertFinished 0 =
      [ .setAnimationSource .gamecomplete, .setAnimationVisible true ] ∧
    (commit expertFinished (fetchRandomWord expertFinished 0)).currentWord ≠ none := by
  have hnil : levelWords expertFinished = [] := by decide
  have hidx : ¬ indexOf levels expertFinished.currentLevel < 3 := by decide
  have hcalls := fetchRandomWord_of_completed expertFinished 0 hnil hidx
  refine ⟨rfl, hnil, hcalls, ?_⟩
  rw [hcalls]
  decide

/-- The render fields that decide a `fetchRandomWord` batch are kept by a run of
game-completed batches. -/
theorem fetchMany_completed (c : GameState) (rs : Nat → ℚ)
    (hlevel : c.currentLevel = "expert") (hnil : levelWords c = []) (n : Nat) :
    (fetchMany rs n c).words = c.words ∧
    (fetchMany rs n c).currentLevel = c.currentLevel ∧
    (fetchMany rs n c).usedWords = c.usedWords ∧
    (fetchMany rs n c).score = c.score ∧
    (fetchMany rs n c).currentWord = c.currentWord := by
  induction n with
  | zero => simp [fetchMany]
  | succ k ih =>
    obtain ⟨hw, hl, hu, hs, hc⟩ := ih
    have hnil2 : levelWords (fetchMany rs k c) = [] := by
      simpa [levelWords, hw, hl, hu] using hnil
    have hidx : ¬ indexOf levels (fetchMany rs k c).currentLevel < 3 := by
      rw [hl, hlevel]; decide
    have hcalls := fetchRandomWord_of_completed (fetchMany rs k c) (rs k) hnil2 hidx
    simp [fetchMany, hcalls, commit, applyCall, hw, hl, hu, hs, hc]

/-- One selection attempt in the game-completed state with no timer pending: no timer is
started and the fields that decide the next attempt are kept. -/
theorem step_completed (c : GameState) (user : Option String)
    (hlevel : c.currentLevel = "expert") (hnil : levelWords c = [])
    (m : Machine) (e : Event) (he : e.isFetchOrTimer = true)
    (hm : m.timers = [] ∧ m.state.words = c.words ∧ m.state.currentLevel = c.currentLevel ∧
      m.state.usedWords = c.usedWords ∧ m.state.score = c.score ∧
      m.state.currentWord = c.currentWord) :
    (m.step user e).timers = [] ∧ (m.step user e).state.words = c.words ∧
      (m.step user e).state.currentLevel = c.currentLevel ∧
      (m.step user e).state.usedWords = c.usedWords ∧ (m.step user e).state.score = c.score ∧
      (m.step user e).state.currentWord = c.currentWord := by
  obtain ⟨ht, hw, hl, hu, hs, hc⟩ := hm
  cases e with
  | fetchRandomWord r =>
    have hnil2 : levelWords m.state = [] := by
      simpa [levelWords, hw, hl, hu] using hnil
    have hidx : ¬ indexOf levels m.state.currentLevel < 3 := by
      rw [hl, hlevel]; decide
    have hcalls := fetchRandomWord_of_completed m.state r hnil2 hidx
    simp [Machine.step, Machine.perform, hcalls, timeoutsOf, commit, applyCall, ht, hw, hl,
      hu, hs, hc]
  | timer r =>
    simp [Machine.step, Machine.fireNext, ht, hw, hl, hu, hs, hc]
  | handleAnswer selectedOption => simp [Event.isFetchOrTimer] at he
  | resetGame r => simp [Event.isFetchOrTimer] at he

/-- Any run of selection attempts from the game-completed state with no timer pending. -/
theorem run_completed (c : GameState) (user : Option String)
    (hlevel : c.currentLevel = "expert") (hnil : levelWords c = [])
    (events : List Event) (hevents : ∀ e ∈ events, e.isFetchOrTimer = true) (m : Machine)
    (hm : m.timers = [] ∧ m.state.words = c.words ∧ m.state.currentLevel = c.currentLevel ∧
      m.state.usedWords = c.usedWords ∧ m.state.score = c.score ∧
      m.state.currentWord = c.currentWord) :
    (Machine.run user m events).timers = [] ∧ (Machine.run user m events).state.words = c.words ∧
      (Machine.run user m events).state.currentLevel = c.currentLevel ∧
      (Machine.run user m events).state.usedWords = c.usedWords ∧
      (Machine.run user m events).state.score = c.score ∧
      (Machine.run user m events).state.currentWord = c.currentWord := by
  induction events generalizing m with
  | nil => exact hm
  | cons e es ih =>
    have hstep := step_completed c user hlevel hnil m e
      (hevents e (List.mem_cons_self e es)) hm
    have hrest : ∀ x ∈ es, x.isFetchOrTimer = true :=
      fun x hx => hevents x (List.mem_cons_of_mem e hx)
    exact ih hrest (m.step user e) hstep

/-- C6, amended: at level `expert` with no unused expert record and no timer pending,
`fetchRandomWord` shows the game-completed animation, starts no timer and leaves
`currentWord` as it was.  After any run of further selection attempts (calls of the
`fetchRandomWord` of the current render, or timers running, with no `handleAnswer` and no
`resetGame` in between) there is still no timer pending, `currentLevel`, `score`, `usedWords`
and `currentWord` are what they were, and the next `fetchRandomWord` call again only shows the
game-completed animation. -/
theorem fetchRandomWord_completed_is_stable (c : GameState) (user : Option String)
    (events : List Event) (r : ℚ)
    (hlevel : c.currentLevel = "expert")
    (hused : ∀ w ∈ c.words, w.difficulty = c.currentLevel → w.word ∈ c.usedWords)
    (hevents : ∀ e ∈ events, e.isFetchOrTimer = true) :
    fetchRandomWord c r = [ .setAnimationSource .gamecomplete, .setAnimationVisible true ] ∧
    timeoutsOf (fetchRandomWord c r) = [] ∧
    (commit c (fetchRandomWord c r)).currentWord = c.currentWord ∧
    (Machine.run user { state := c, timers := [] } events).timers = [] ∧
    (Machine.run user { state := c, timers := [] } events).state.currentLevel
      = c.currentLevel ∧
    (Machine.run user { state := c, timers := [] } events).state.score = c.score ∧
    (Machine.run user { state := c, timers := [] } events).state.usedWords = c.usedWords ∧
    (Machine.run user { state := c, timers := [] } events).state.currentWord
      = c.currentWord ∧
    fetchRandomWord (Machine.run user { state := c, timers := [] } events).state r
      = [ .setAnimationSource .gamecomplete, .setAnimationVisible true ] := by
  have hnil : levelWords c = [] := (levelWords_eq_nil c).mpr hused
  have hidx : ¬ indexOf levels c.currentLevel < 3 := by rw [hlevel]; decide
  have hcalls := fetchRandomWord_of_completed c r hnil hidx
  obtain ⟨ht, hw, hl, hu, hs, hc⟩ := run_completed c user hlevel hnil events hevents
    { state := c, timers := [] } ⟨rfl, rfl, rfl, rfl, rfl, rfl⟩
  have hnil2 : levelWords (Machine.run user { state := c, timers := [] } events).state = [] := by
    simpa [levelWords, hw, hl, hu] using hnil
  have hidx2 : ¬ indexOf levels
      (Machine.run user { state := c, timers := [] } events).state.currentLevel < 3 := by
    rw [hl, hlevel]; decide
  refine ⟨hcalls, ?_, ?_, ht, hl, hs, hu, hc,
    fetchRandomWord_of_completed _ r hnil2 hidx2⟩
  · rw [hcalls]; rfl
  · rw [hcalls]; rfl

/-- The witness of the amended C6: on `expertFinished`, two calls with a timer run between
them. -/
theorem fetchRandomWord_completed_is_stable_witness :
    fetchRandomWord expertFinished (1 / 2)
      = [ .setAnimationSource .gamecomplete, .setAnimationVisible true ] ∧
    (Machine.run none { state := expertFinished, timers := [] }
        [ .fetchRandomWord (1 / 2), .timer 0, .fetchRandomWord 0 ]).timers = [] ∧
    (Machine.run none { state := expertFinished, timers := [] }
        [ .fetchRandomWord (1 / 2), .timer 0, .fetchRandomWord 0 ]).state.currentLevel
      = expertFinished.currentLevel ∧
    (Machine.run none { state := expertFinished, timers := [] }
        [ .fetchRandomWord (1 / 2), .timer 0, .fetchRandomWord 0 ]).state.currentWord
      = expertFinished.currentWord :=
  have h := fetchRandomWord_completed_is_stable expertFinished none
    [ .fetchRandomWord (1 / 2), .timer 0, .fetchRandomWord 0 ] (1 / 2) rfl (by decide)
    (by
      intro e he
      simp only [List.mem_cons, List.mem_singleton, List.not_mem_nil, or_false] at he
      rcases he with h | h | h <;> rw [h] <;> rfl)
  ⟨h.1, h.2.2.2.1, h.2.2.2.2.1, h.2.2.2.2.2.2.2.1⟩

/-! ## C7 -/

theorem fireMany_of_fixed (m : Machine) (user : Option String) (r : ℚ)
    (h : m.fireNext user r = m) (n : Nat) : m.fireMany user r n = m := by
  induction n with
  | zero => rfl
  | succ k ih => rw [Machine.fireMany, h, ih]

/-- C7, the code at a failing input: the catalog holds only the easy words `cat` and `dog`,
both used, the level is `easy`.  `fetchRandomWord` advances to `medium` and starts a timer
whose callback calls the same `fetchRandomWord` over the same render, level `easy` included:
however many timers run, the level-up animation is shown again, `currentLevel` is set to
`medium` again, a new timer is pending, and the game-completed animation never comes; the
start effect selects nothing either, the word answered last being still current. -/
theorem tier_advance_chain_never_ends (r : ℚ) (n : Nat) :
    levelWords easyOnlyUsed = [] ∧
    ((Machine.perform { state := easyOnlyUsed, timers := [] }
        (fetchRandomWord easyOnlyUsed r)).fireMany none r n).timers
      = [ .levelUpDone easyOnlyUsed ] ∧
    ((Machine.perform { state := easyOnlyUsed, timers := [] }
        (fetchRandomWord easyOnlyUsed r)).fireMany none r n).state.currentLevel = "medium" ∧
    ((Machine.perform { state := easyOnlyUsed, timers := [] }
        (fetchRandomWord easyOnlyUsed r)).fireMany none r n).state.animationSource
      = some .levelup ∧
    ((Machine.perform { state := easyOnlyUsed, timers := [] }
        (fetchRandomWord easyOnlyUsed r)).fireMany none r n).state.currentWord
      = easyOnlyUsed.currentWord ∧
    startGame ((Machine.perform { state := easyOnlyUsed, timers := [] }
        (fetchRandomWord easyOnlyUsed r)).fireMany none r n).state r = [] := by
  have hnil : levelWords easyOnlyUsed = [] := by decide
  have hidx : indexOf levels easyOnlyUsed.currentLevel < 3 := by decide
  have hget : arrayGet levels (indexOf levels easyOnlyUsed.currentLevel + 1) = some "medium" := by
    decide
  have hcalls := fetchRandomWord_of_exhausted easyOnlyUsed r hnil hidx
  rw [hget] at hcalls
  have hfix : (Machine.perform { state := easyOnlyUsed, timers := [] }
      (fetchRandomWord easyOnlyUsed r)).fireNext none r
      = Machine.perform { state := easyOnlyUsed, timers := [] }
          (fetchRandomWord easyOnlyUsed r) := by
    simp [hcalls, Machine.perform, Machine.fireNext, timeoutsOf, fire, levelUpDone, commit,
      applyCall]
  rw [fireMany_of_fixed _ none r hfix n]
  have hcw : (Machine.perform { state := easyOnlyUsed, timers := [] }
      (fetchRandomWord easyOnlyUsed r)).state.currentWord
      = some (localWord "dog" "dog" ["dog", "dogg"] "dog.png" "easy") := by
    simp [hcalls, Machine.perform, commit, applyCall]
    rfl
  refine ⟨hnil, ?_, ?_, ?_, ?_, ?_⟩
  · simp [hcalls, Machine.perform, timeoutsOf]
  · simp [hcalls, Machine.perform, commit, applyCall]
  · simp [hcalls, Machine.perform, commit, applyCall]
  · simp [hcalls, Machine.perform, commit, applyCall]
  · simp [startGame, hcw]

/-! ## C8 -/

/-- C8, the code at a failing input: `resetGame` pressed in the render `mediumInProgress`
(the local catalog, which has easy records).  The setters give level `easy`, score `0` and an
empty `usedWords`, but the `fetchRandomWord` that `resetGame` calls still filters by the level
`medium` of that render: the current word after the reset is `apple`, of difficulty `medium`,
and the start effect does not select again because a current word is present. -/
theorem resetGame_selects_from_previous_tier :
    (commit mediumInProgress (resetGame mediumInProgress none 0)).currentLevel = "easy" ∧
    (commit mediumInProgress (resetGame mediumInProgress none 0)).score = 0 ∧
    (commit mediumInProgress (resetGame mediumInProgress none 0)).usedWords = [] ∧
    ((commit mediumInProgress (resetGame mediumInProgress none 0)).currentWord.map
        fun w => (w.word, w.difficulty)) = some ("apple", "medium") ∧
    ∀ r, startGame (commit mediumInProgress (resetGame mediumInProgress none 0)) r = [] := by
  have hlw : (levelWords mediumInProgress).map (fun w => w.word)
      = ["apple", "banana", "orange"] := by decide
  have hf : fetchRandomWord mediumInProgress 0 =
      [ .setCurrentWord (some (localWord "word6" "apple" ["apple", "aple", "appel", "apel"]
          "https://source.unsplash.com/featured/?apple" "medium")),
        .playWordSound (localWord "word6" "apple" ["apple", "aple", "appel", "apel"]
          "https://source.unsplash.com/featured/?apple" "medium") ] := by
    have hlw2 : levelWords mediumInProgress =
        [ localWord "word6" "apple" ["apple", "aple", "appel", "apel"]
            "https://source.unsplash.com/featured/?apple" "medium",
          localWord "word7" "banana" ["banana", "bananna", "banena", "bananaa"]
            "https://source.unsplash.com/featured/?banana" "medium",
          localWord "word8" "orange" ["orange", "orenge", "orang", "oranj"]
            "https://source.unsplash.com/featured/?orange" "medium" ] := by decide
    simp [fetchRandomWord, hlw2, randomIndex_zero, arrayGet]
  have hcw : (commit mediumInProgress (resetGame mediumInProgress none 0)).currentWord =
      some (localWord "word6" "apple" ["apple", "aple", "appel", "apel"]
        "https://source.unsplash.com/featured/?apple" "medium") := by
    simp [resetGame, saveUserProgress, hf, commit, applyCall]
  refine ⟨?_, ?_, ?_, ?_, ?_⟩
  · simp [resetGame, saveUserProgress, hf, commit, applyCall]
  · simp [resetGame, saveUserProgress, hf, commit, applyCall]
  · simp [resetGame, saveUserProgress, hf, commit, applyCall]
  · rw [hcw]; rfl
  · intro r
    simp [startGame, hcw]

/-! ## C9 -/

/-- C9, the code at a failing input, signed in as `uid-1`.  `cat` is answered correctly from
score `0` with nothing used: the render that follows has score `10` and `usedWords = [cat]`,
but the document written by the timer of that answer has score `0` and no completed word.
`resetGame` pressed in `mediumInProgress` writes level `medium`, score `50` and the five
completed words, not `easy`, `0` and the empty list. -/
theorem saved_progress_is_the_previous_render :
    writesOf (handleAnswer catPresented "cat") = [] ∧
    writesOf (fire (some "uid-1") 0 (.answerDone catPresented true)) = [("easy", 0, [])] ∧
    ((Machine.perform { state := catPresented, timers := [] }
        (handleAnswer catPresented "cat")).fireNext (some "uid-1") 0).state.score = 10 ∧
    ((Machine.perform { state := catPresented, timers := [] }
        (handleAnswer catPresented "cat")).fireNext (some "uid-1") 0).state.usedWords
      = ["cat"] ∧
    writesOf (resetGame mediumInProgress (some "uid-1") 0)
      = [("medium", 50, ["cat", "dog", "run", "jump", "play"])] := by
  have hlw : levelWords catPresented = [localWord "w1" "cat" ["cat", "kat"] "cat.png" "easy"] := by
    decide
  have hf : fetchRandomWord catPresented 0 =
      [ .setCurrentWord (some (localWord "w1" "cat" ["cat", "kat"] "cat.png" "easy")),
        .playWordSound (localWord "w1" "cat" ["cat", "kat"] "cat.png" "easy") ] := by
    simp [fetchRandomWord, hlw, randomIndex_zero, arrayGet]
  have hh : handleAnswer catPresented "cat" =
      [ .setScore 10, .setAnimationSource .correct, .playSound true,
        .triggerHapticFeedback "success", .scoreAnimationStart, .setAnimationVisible true,
        .setTimeout (.answerDone catPresented true) 2000 ] := by
    decide
  have hlw2 : levelWords mediumInProgress =
      [ localWord "word6" "apple" ["apple", "aple", "appel", "apel"]
          "https://source.unsplash.com/featured/?apple" "medium",
        localWord "word7" "banana" ["banana", "bananna", "banena", "bananaa"]
          "https://source.unsplash.com/featured/?banana" "medium",
        localWord "word8" "orange" ["orange", "orenge", "orang", "oranj"]
          "https://source.unsplash.com/featured/?orange" "medium" ] := by decide
  have hf2 : fetchRandomWord mediumInProgress 0 =
      [ .setCurrentWord (some (localWord "word6" "apple" ["apple", "aple", "appel", "apel"]
          "https://source.unsplash.com/featured/?apple" "medium")),
        .playWordSound (localWord "word6" "apple" ["apple", "aple", "appel", "apel"]
          "https://source.unsplash.com/featured/?apple" "medium") ] := by
    simp [fetchRandomWord, hlw2, randomIndex_zero, arrayGet]
  have hcw : catPresented.currentWord
      = some (localWord "w1" "cat" ["cat", "kat"] "cat.png" "easy") := rfl
  refine ⟨?_, ?_, ?_, ?_, ?_⟩
  · rw [hh]; rfl
  · simp [fire, answerDone, hf, hcw, saveUserProgress, writesOf]
    decide
  · exact (machine_after_correct_answer catPresented _ "cat" (some "uid-1") 0 hcw rfl).1.trans
      (by decide)
  · exact (machine_after_correct_answer catPresented _ "cat" (some "uid-1") 0 hcw rfl).2.trans
      (by decide)
  · simp [resetGame, hf2, saveUserProgress, writesOf]
    decide

/-! ## C10 -/

/-- Every rate that `playWordSound` forwards is the `speechRate` of its render, and it
forwards it once or twice (a rejected audio call is followed by `Speech.speak`). -/
theorem forwardedRates_playWordSound (c : GameState) (o : AudioOutcome) (word : WordRecord) :
    ∃ k, forwardedRates (playWordSound c o word) = List.replicate (k + 1) c.speechRate := by
  obtain ⟨p, cf, sf, pf⟩ := o
  cases p <;> cases cf <;> cases sf <;> cases pf <;> cases ht : truthy word.sound <;>
    simp only [playWordSound, ht, forwardedRates, List.cons_append, List.nil_append,
      if_true, if_false, Bool.false_eq_true] <;>
    first
    | exact ⟨0, rfl⟩
    | exact ⟨1, rfl⟩

/-- C10 as stated fails: after `changeSpeechRate (2)` the "Hear Word" button makes
`playWordSound` hand the rate `2` to `Speech.speak`, not the clamped value `1.5`. -/
theorem changeSpeechRate_does_not_clamp :
    forwardedRates (repeatWord (commit catPresented (changeSpeechRate 2))
        { preloaded := false, createFails := false, setRateFails := false,
          playFails := false }) = [2] ∧
    ¬ ∀ x ∈ forwardedRates (repeatWord (commit catPresented (changeSpeechRate 2))
        { preloaded := false, createFails := false, setRateFails := false,
          playFails := false }), x = min (max (2 : ℚ) (1 / 2)) (3 / 2) := by
  have h : forwardedRates (repeatWord (commit catPresented (changeSpeechRate 2))
      { preloaded := false, createFails := false, setRateFails := false,
        playFails := false }) = [2] := by
    have hcw : (commit catPresented (changeSpeechRate 2)).currentWord
        = some (localWord "w1" "cat" ["cat", "kat"] "cat.png" "easy") := rfl
    have hrate : (commit catPresented (changeSpeechRate 2)).speechRate = 2 := rfl
    simp [repeatWord, hcw, playWordSound, truthy, localWord, forwardedRates, hrate]
  refine ⟨h, ?_⟩
  rw [h]
  norm_num

/-- C10, amended: for every rate passed to `changeSpeechRate`, the next render holds that
rate unchanged, and every rate its `playWordSound` forwards to `sound.setRateAsync` or
`Speech.speak` is that rate itself; nothing clamps it, so the forwarded rate equals
`min (max rate 0.5) 1.5` exactly when `0.5 ≤ rate ≤ 1.5`, the range of the slider. -/
theorem changeSpeechRate_forwards_rate_unchanged (s : GameState) (rate : ℚ)
    (o : AudioOutcome) (word : WordRecord) :
    (commit s (changeSpeechRate rate)).speechRate = rate ∧
    (∃ k, forwardedRates (playWordSound (commit s (changeSpeechRate rate)) o word)
      = List.replicate (k + 1) rate) ∧
    (min (max rate (1 / 2)) (3 / 2) = rate ↔ 1 / 2 ≤ rate ∧ rate ≤ 3 / 2) := by
  have hrate : (commit s (changeSpeechRate rate)).speechRate = rate := rfl
  refine ⟨hrate, ?_, ?_⟩
  · obtain ⟨k, hk⟩ := forwardedRates_playWordSound (commit s (changeSpeechRate rate)) o word
    exact ⟨k, by rw [hk, hrate]⟩
  · constructor
    · intro h
      constructor
      · by_contra hlt
        push_neg at hlt
        rw [max_eq_right hlt.le] at h
        rw [min_eq_left (by norm_num)] at h
        linarith
      · rw [← h]
        exact min_le_right _ _
    · rintro ⟨h1, h2⟩
      rw [max_eq_left h1, min_eq_left h2]

/-! ## C11 -/

theorem fetchRandomWord_catPresented :
    fetchRandomWord catPresented 0 =
      [ .setCurrentWord (some (localWord "w1" "cat" ["cat", "kat"] "cat.png" "easy")),
        .playWordSound (localWord "w1" "cat" ["cat", "kat"] "cat.png" "easy") ] := by
  have hlw : levelWords catPresented = [localWord "w1" "cat" ["cat", "kat"] "cat.png" "easy"] := by
    decide
  simp [fetchRandomWord, hlw, randomIndex_zero, arrayGet]

theorem fetchRandomWord_initial_oneWordPerTier :
    fetchRandomWord (initialState oneWordPerTier) 0 =
      [ .setCurrentWord (some (localWord "w1" "cat" ["cat", "kat"] "cat.png" "easy")),
        .playWordSound (localWord "w1" "cat" ["cat", "kat"] "cat.png" "easy") ] := by
  have hlw : levelWords (initialState oneWordPerTier)
      = [localWord "w1" "cat" ["cat", "kat"] "cat.png" "easy"] := by
    decide
  simp [fetchRandomWord, hlw, randomIndex_zero, arrayGet]

/-- The first three events of the run of C11 lead to the render `catAnsweredOnce`, with no
timer pending. -/
theorem run_to_catAnsweredOnce :
    Machine.run none { state := initialState oneWordPerTier, timers := [] }
        [ .fetchRandomWord 0, .handleAnswer "cat", .timer 0 ]
      = { state := catAnsweredOnce, timers := [] } := by
  have hs1 : commit (initialState oneWordPerTier)
      [ .setCurrentWord (some (localWord "w1" "cat" ["cat", "kat"] "cat.png" "easy")),
        .playWordSound (localWord "w1" "cat" ["cat", "kat"] "cat.png" "easy") ]
      = catPresented := rfl
  have hh : handleAnswer catPresented "cat" =
      [ .setScore 10, .setAnimationSource .correct, .playSound true,
        .triggerHapticFeedback "success", .scoreAnimationStart, .setAnimationVisible true,
        .setTimeout (.answerDone catPresented true) 2000 ] := by
    decide
  have hcw : catPresented.currentWord
      = some (localWord "w1" "cat" ["cat", "kat"] "cat.png" "easy") := rfl
  simp only [Machine.run, List.foldl, Machine.step, Machine.perform,
    fetchRandomWord_initial_oneWordPerTier, hs1, timeoutsOf, List.append_nil, hh,
    List.nil_append, Machine.fireNext, fire, answerDone, hcw, if_true, saveUserProgress,
    fetchRandomWord_catPresented]
  rfl

/-- C11, the code at a failing input: from the initial state over a catalog with one word per
tier, `cat` is selected, answered correctly, selected again by the stale `fetchRandomWord` of
the answer's timer, and answered correctly again: `usedWords` holds `cat` twice and the word
was scored twice, `20` in all, without a reset. -/
theorem usedWords_holds_a_word_twice :
    (Machine.run none { state := initialState oneWordPerTier, timers := [] }
        [ .fetchRandomWord 0, .handleAnswer "cat", .timer 0,
          .handleAnswer "cat", .timer 0 ]).state.usedWords = ["cat", "cat"] ∧
    (Machine.run none { state := initialState oneWordPerTier, timers := [] }
        [ .fetchRandomWord 0, .handleAnswer "cat", .timer 0,
          .handleAnswer "cat", .timer 0 ]).state.score = 20 ∧
    ¬ (Machine.run none { state := initialState oneWordPerTier, timers := [] }
        [ .fetchRandomWord 0, .handleAnswer "cat", .timer 0,
          .handleAnswer "cat", .timer 0 ]).state.usedWords.Nodup := by
  have hsplit : Machine.run none { state := initialState oneWordPerTier, timers := [] }
      [ .fetchRandomWord 0, .handleAnswer "cat", .timer 0, .handleAnswer "cat", .timer 0 ]
      = (Machine.perform { state := catAnsweredOnce, timers := [] }
          (handleAnswer catAnsweredOnce "cat")).fireNext none 0 := by
    have h := run_to_catAnsweredOnce
    simp only [Machine.run, List.foldl] at h ⊢
    rw [h]
    rfl
  have hcw : catAnsweredOnce.currentWord
      = some (localWord "w1" "cat" ["cat", "kat"] "cat.png" "easy") := rfl
  have hafter := machine_after_correct_answer catAnsweredOnce _ "cat" none 0 hcw rfl
  have hused : (Machine.run none { state := initialState oneWordPerTier, timers := [] }
      [ .fetchRandomWord 0, .handleAnswer "cat", .timer 0,
        .handleAnswer "cat", .timer 0 ]).state.usedWords = ["cat", "cat"] := by
    rw [hsplit]
    exact hafter.2.trans (by decide)
  refine ⟨hused, ?_, ?_⟩
  · rw [hsplit]
    exact hafter.1.trans (by decide)
  · rw [hused]
    decide

/-! ## C12 -/

/-- A `loadUserProgress` batch sets neither `words` nor `loading`. -/
theorem commit_loadUserProgress_frame (s : GameState) (user : Option String)
    (store : GetDocResult) (setDocRejects : Bool) :
    (commit s (loadUserProgress user store setDocRejects)).words = s.words ∧
    (commit s (loadUserProgress user store setDocRejects)).loading = s.loading := by
  cases user <;> cases store <;> cases setDocRejects <;>
    simp [loadUserProgress, commit, applyCall]

/-- C12: `fetchWords` always completes, with no error let through and `loading` set to false.
The catalog it leaves in `words` is the fetched one when `getDocs` yields at least one record,
and `getLocalWordData ()` when `getDocs` yields none or rejects. -/
theorem fetchWords_loads_fetched_or_local (s : GameState) (doc : WordRecord)
    (docs : List WordRecord) (user : Option String) (store : GetDocResult)
    (setDocRejects : Bool) :
    (∃ calls, fetchWords (.snapshot (doc :: docs)) user store setDocRejects = .ok calls ∧
      (commit s calls).words = doc :: docs ∧ (commit s calls).loading = false) ∧
    (∃ calls, fetchWords (.snapshot []) user store setDocRejects = .ok calls ∧
      (commit s calls).words = getLocalWordData ∧ (commit s calls).loading = false) ∧
    (∃ calls, fetchWords .rejects user store setDocRejects = .ok calls ∧
      (commit s calls).words = getLocalWordData ∧ (commit s calls).loading = false) := by
  refine ⟨⟨_, rfl, ?_, ?_⟩, ⟨_, rfl, ?_, ?_⟩, ⟨_, rfl, rfl, rfl⟩⟩
  · have h := (commit_loadUserProgress_frame
      (applyCall (applyCall s .getDocs) (.setWords (doc :: docs))) user store setDocRejects).1
    simpa [commit_cons, commit_append, commit_nil, applyCall] using h
  · simp [commit_cons, commit_append, commit_nil, applyCall]
  · have h := (commit_loadUserProgress_frame
      (applyCall (applyCall (applyCall s .getDocs) (.setIsOffline true))
        (.setWords getLocalWordData)) user store setDocRejects).1
    simpa [commit_cons, commit_append, commit_nil, applyCall] using h
  · simp [commit_cons, commit_append, commit_nil, applyCall]

/-! ## C13 -/

/-- C13: the local catalog is the fixed list of the eight records `cat`, `dog`, `run`, `jump`,
`play`, `apple`, `banana`, `orange` in that order; it has a record of difficulty `easy` and
one of difficulty `medium`; the options of every record contain its word exactly once. -/
theorem getLocalWordData_is_well_formed :
    getLocalWordData.map (fun w => w.word)
      = ["cat", "dog", "run", "jump", "play", "apple", "banana", "orange"] ∧
    (∃ w ∈ getLocalWordData, w.difficulty = "easy") ∧
    (∃ w ∈ getLocalWordData, w.difficulty = "medium") ∧
    (getLocalWordData.all fun w => decide (w.options.count w.word = 1)) = true := by
  refine ⟨by decide, by decide, by decide, by decide⟩

/-! ## C14 -/

/-- C14: with no signed-in user, `loadUserProgress` makes no call at all and
`saveUserProgress` none either, so no `getDoc`, `setDoc` or `updateDoc` reaches the Progress
Store, and `loadUserProgress` leaves `currentLevel`, `score` and `usedWords` as they were. -/
theorem no_store_call_without_user (s c : GameState) (store : GetDocResult)
    (setDocRejects : Bool) :
    loadUserProgress none store setDocRejects = [] ∧
    saveUserProgress c none = [] ∧
    storeCallsOf (loadUserProgress none store setDocRejects) = [] ∧
    storeCallsOf (saveUserProgress c none) = [] ∧
    (commit s (loadUserProgress none store setDocRejects)).currentLevel = s.currentLevel ∧
    (commit s (loadUserProgress none store setDocRejects)).score = s.score ∧
    (commit s (loadUserProgress none store setDocRejects)).usedWords = s.usedWords :=
  ⟨rfl, rfl, rfl, rfl, rfl, rfl, rfl⟩

/-! ## C15 -/

/-- Every word counted as completed is the `word` of a catalog record of the level. -/
theorem completedInLevel_subset (c : GameState) :
    completedInLevel c ⊆ (totalInLevel c).map fun w => w.word := by
  intro w hw
  simp only [completedInLevel, List.mem_filter] at hw
  obtain ⟨_, hfind⟩ := hw
  cases hrec : c.words.find? (fun word => decide (word.word = w)) with
  | none => simp [hrec] at hfind
  | some word =>
    rw [hrec] at hfind
    have hword : word.word = w := by simpa using List.find?_some hrec
    have hmem : word ∈ c.words := List.mem_of_find?_eq_some hrec
    have hdiff : word.difficulty = c.currentLevel := by simpa using hfind
    exact List.mem_map.mpr ⟨word, by simp [totalInLevel, List.mem_filter, hmem, hdiff], hword⟩

theorem completedInLevel_length_le (c : GameState) (hnodup : c.usedWords.Nodup) :
    (completedInLevel c).length ≤ (totalInLevel c).length := by
  have hnd : (completedInLevel c).Nodup := hnodup.sublist (List.filter_sublist _)
  have h := (hnd.subperm (completedInLevel_subset c)).length_le
  simpa using h

/-- C15: for every catalog, level and duplicate-free `usedWords`, the completed count of the
progress indicator is at most its total count; the divisor `total || 1` is never zero, the
fill width lies between 0 and 100 percent, and when the level has no record the divisor is 1
and the width 0. -/
theorem progress_width_in_range (c : GameState) (hnodup : c.usedWords.Nodup) :
    (completedInLevel c).length ≤ (totalInLevel c).length ∧
    0 < progressDivisor c ∧
    0 ≤ progressWidth c ∧
    progressWidth c ≤ 100 ∧
    ((totalInLevel c).length = 0 → progressDivisor c = 1 ∧ progressWidth c = 0) := by
  have hle := completedInLevel_length_le c hnodup
  have hpos : 0 < progressDivisor c := by
    unfold progressDivisor
    split_ifs with h
    · exact Nat.one_pos
    · exact Nat.pos_of_ne_zero h
  have hled : (completedInLevel c).length ≤ progressDivisor c := by
    unfold progressDivisor
    split_ifs with h
    · omega
    · exact hle
  have hposq : (0 : ℚ) < (progressDivisor c : ℚ) := by exact_mod_cast hpos
  have hledq : ((completedInLevel c).length : ℚ) ≤ (progressDivisor c : ℚ) := by
    exact_mod_cast hled
  refine ⟨hle, hpos, ?_, ?_, ?_⟩
  · unfold progressWidth
    positivity
  · unfold progressWidth
    have h1 : ((completedInLevel c).length : ℚ) / (progressDivisor c : ℚ) ≤ 1 :=
      (div_le_one hposq).mpr hledq
    linarith
  · intro hzero
    have hk : (completedInLevel c).length = 0 := by omega
    have hd : progressDivisor c = 1 := by simp [progressDivisor, hzero]
    exact ⟨hd, by simp [progressWidth, hk]⟩

/-- The witness of C15: the local catalog has no record of difficulty `hard`, so at level
`hard` with `cat` used the count is `0 / 0`, the divisor 1 and the width 0. -/
theorem progress_width_in_range_witness :
    (completedInLevel { initialState getLocalWordData with
        currentLevel := "hard", usedWords := ["cat"] }).length
      ≤ (totalInLevel { initialState getLocalWordData with
        currentLevel := "hard", usedWords := ["cat"] }).length ∧
    progressWidth { initialState getLocalWordData with
        currentLevel := "hard", usedWords := ["cat"] } ≤ 100 ∧
    progressWidth { initialState getLocalWordData with
        currentLevel := "hard", usedWords := ["cat"] } = 0 :=
  have h := progress_width_in_range
    { initialState getLocalWordData with currentLevel := "hard", usedWords := ["cat"] }
    (by decide)
  ⟨h.1, h.2.2.2.1, (h.2.2.2.2 (by decide)).2⟩

/-! ## C16 -/

/-- C16: when `currentLevel` is none of `easy`, `medium`, `hard`, `expert` and no unused
record has that difficulty, `indexOf` gives `-1`, so `fetchRandomWord` takes the tier-advance
branch: it sets `currentLevel` to `levels[0]`, that is `easy`, and shows the level-up
animation, not the game-completed one. -/
theorem fetchRandomWord_unknown_level_goes_to_easy (c : GameState) (r : ℚ)
    (hlevel : c.currentLevel ∉ levels)
    (hused : ∀ w ∈ c.words, w.difficulty = c.currentLevel → w.word ∈ c.usedWords) :
    indexOf levels c.currentLevel = -1 ∧
    fetchRandomWord c r =
      [ .setCurrentLevel "easy", .setAnimationSource .levelup, .setAnimationVisible true,
        .setTimeout (.levelUpDone c) 2500 ] ∧
    (commit c (fetchRandomWord c r)).currentLevel = "easy" ∧
    (commit c (fetchRandomWord c r)).animationSource = some .levelup ∧
    (commit c (fetchRandomWord c r)).animationSource ≠ some .gamecomplete := by
  have hnil : levelWords c = [] := (levelWords_eq_nil c).mpr hused
  have hidx : indexOf levels c.currentLevel = -1 := by simp [indexOf, hlevel]
  have hcalls := fetchRandomWord_of_exhausted c r hnil (by rw [hidx]; decide)
  rw [hidx] at hcalls
  have hget : (arrayGet levels (-1 + 1)).getD "undefined" = "easy" := by decide
  rw [hget] at hcalls
  refine ⟨hidx, hcalls, ?_, ?_, ?_⟩ <;> simp [hcalls, commit, applyCall]

/-- The witness of C16: the level `beginner`, as `loadUserProgress` sets it from a stored
document with that level. -/
theorem fetchRandomWord_unknown_level_goes_to_easy_witness :
    (commit (initialState getLocalWordData)
        (loadUserProgress (some "uid-1")
          (.found { level := some "beginner", score := none, wordsCompleted := none })
          false)).currentLevel = unknownLevel.currentLevel ∧
    (commit unknownLevel (fetchRandomWord unknownLevel (1 / 2))).currentLevel = "easy" ∧
    (commit unknownLevel (fetchRandomWord unknownLevel (1 / 2))).animationSource
      = some .levelup :=
  have h := fetchRandomWord_unknown_level_goes_to_easy unknownLevel (1 / 2) (by decide)
    (by decide)
  ⟨by decide, h.2.2.1, h.2.2.2.1⟩

end SpellingGame
